import Mathlib

/-!
# Verification of the lease/invoice comparison core of `app.py`

Shallow embedding of the comparison / violation-detection engine:
`categorize_charge`, `find_relevant_clause`, `check_violation`,
`compare_lease_invoice`.  Amounts are modelled as exact rationals (`ℚ`);
Python dictionaries holding the lease sections are modelled as a structure
whose six list fields are `Option (List ClauseItem)` (a missing key is
`none`, a present key is `some`), plus a flag for any further keys, so that
Python dict truthiness is representable.  Python string operations
(`lower`, `strip`, `split`, `in`, slicing) are modelled by executable
functions over the character list of the string (the inputs of interest
are ASCII, where these agree with Python's semantics).
-/

/-- Python's substring test `needle in hay`, on explicit character lists.
The empty needle is contained in every string, as in Python. -/
def lcontains (needle : List Char) : List Char → Bool
  | [] => needle.isEmpty
  | c :: t => needle.isPrefixOf (c :: t) || lcontains needle t

/-- Python's `needle in hay` on strings. -/
def strIn (needle hay : String) : Bool :=
  lcontains needle.data hay.data

/-- ASCII lower-casing of one character (Python `str.lower` on ASCII). -/
def charLower (c : Char) : Char :=
  if 65 ≤ c.toNat && c.toNat ≤ 90 then Char.ofNat (c.toNat + 32) else c

/-- Python's `s.lower()`. -/
def pyLower (s : String) : String := ⟨s.data.map charLower⟩

/-- Python's `s.strip()`: drop leading and trailing whitespace. -/
def pyStrip (s : String) : String :=
  ⟨((s.data.dropWhile Char.isWhitespace).reverse.dropWhile Char.isWhitespace).reverse⟩

/-- Helper for `pyWords`: split on whitespace runs, accumulating the
current word reversed. -/
def pyWordsAux : List Char → List Char → List String
  | [], acc => if acc = [] then [] else [String.mk acc.reverse]
  | c :: t, acc =>
    if c.isWhitespace then
      if acc = [] then pyWordsAux t []
      else String.mk acc.reverse :: pyWordsAux t []
    else pyWordsAux t (c :: acc)

/-- Python's `s.split()`: split on whitespace runs, dropping empty pieces. -/
def pyWords (s : String) : List String := pyWordsAux s.data []

/-- Python's `s[:n]` on strings (first `n` characters). -/
def strTake (s : String) (n : Nat) : String := ⟨s.data.take n⟩

/-- One entry of a lease section (`app.py` stores these as dicts with
`exact_wording` and `clause_reference` keys, per the data model). -/
structure ClauseItem where
  exact_wording : String
  clause_reference : String
deriving DecidableEq

/-- The lease-terms record as `compare_lease_invoice` and
`find_relevant_clause` consume it.  Each section field is `none` when the
key is absent from the dict and `some l` when present with value `l`;
`otherKeys` records whether the dict has any further keys (e.g.
`raw_text`), which matters only for Python truthiness of the dict. -/
structure LeaseData where
  cam_rules : Option (List ClauseItem)
  disallowed_fees : Option (List ClauseItem)
  allowed_fees : Option (List ClauseItem)
  utilities_details : Option (List ClauseItem)
  taxes_details : Option (List ClauseItem)
  escalation_caps_details : Option (List ClauseItem)
  otherKeys : Bool
deriving DecidableEq

/-- Python truthiness of the lease dict: nonempty iff some key is present. -/
def LeaseData.truthy (l : LeaseData) : Bool :=
  l.otherKeys || l.cam_rules.isSome || l.disallowed_fees.isSome ||
  l.allowed_fees.isSome || l.utilities_details.isSome ||
  l.taxes_details.isSome || l.escalation_caps_details.isSome

/-- `lease_data.get('cam_rules', [])`. -/
def LeaseData.camRules (l : LeaseData) : List ClauseItem := l.cam_rules.getD []

/-- `lease_data.get('disallowed_fees', [])`. -/
def LeaseData.disallowedFees (l : LeaseData) : List ClauseItem := l.disallowed_fees.getD []

/-- `lease_data.get('allowed_fees', [])`. -/
def LeaseData.allowedFees (l : LeaseData) : List ClauseItem := l.allowed_fees.getD []

/-- `lease_data.get('utilities_details', [])`. -/
def LeaseData.utilitiesDetails (l : LeaseData) : List ClauseItem := l.utilities_details.getD []

/-- `lease_data.get('taxes_details', [])`. -/
def LeaseData.taxesDetails (l : LeaseData) : List ClauseItem := l.taxes_details.getD []

/-- `lease_data.get('escalation_caps_details', [])`. -/
def LeaseData.escalationCapsDetails (l : LeaseData) : List ClauseItem := l.escalation_caps_details.getD []

/-- One invoice line item. -/
structure LineItem where
  description : String
  amount : ℚ
  category : String
  line_number : Nat
deriving DecidableEq

/-- `categorize_charge`'s fixed ordered keyword table (Python dict literal,
iterated in insertion order). -/
def categoriesTable : List (String × List String) :=
  [("CAM", ["cam", "common area", "maintenance"]),
   ("Tax", ["tax", "property tax", "real estate"]),
   ("Utilities", ["utility", "electric", "water", "gas", "sewer", "trash"]),
   ("Rent", ["rent", "base rent", "monthly rent"]),
   ("Insurance", ["insurance", "liability"]),
   ("Other", [])]

/-- `categorize_charge` from `app.py`: first category (in table row order,
skipping `Other`) with a keyword occurring in the lowercased description;
`Other` if none. -/
def categorize_charge (description : String) : String :=
  let desc_lower := pyLower description
  ((categoriesTable.find?
      (fun p => p.1 ≠ "Other" && p.2.any (fun k => strIn k desc_lower))).map
    Prod.fst).getD "Other"

/-- Guard used throughout `find_relevant_clause`: strip the reference and
keep it only if nonempty and not the sentinel (case-insensitively). -/
def keepRef (cr : String) : Option String :=
  let c := pyStrip cr
  if c ≠ "" && pyLower c ≠ "see lease document" then some c else none

/-- The `disallowed_fees`/`allowed_fees` scans of `find_relevant_clause`:
references of entries whose `exact_wording` contains the search term
(case-insensitively), filtered through `keepRef`, in order. -/
def scanWording (items : List ClauseItem) (term : String) : List String :=
  items.filterMap fun it =>
    if strIn (pyLower term) (pyLower it.exact_wording) then keepRef it.clause_reference
    else none

/-- The keyword-gated scans of `find_relevant_clause`: every entry's
reference, filtered through `keepRef`, in order. -/
def scanRefs (items : List ClauseItem) : List String :=
  items.filterMap fun it => keepRef it.clause_reference

/-- `find_relevant_clause` from `app.py`: collect candidate references from
`disallowed_fees`, `allowed_fees`, then the keyword/category-gated
sections, return the first; if none, fall back to scanning all six
sections in fixed order; else the empty string. -/
def find_relevant_clause (lease : LeaseData) (search_term : String)
    (category : Option String) : String :=
  let st_lower := pyLower search_term
  let clause_refs :=
    scanWording lease.disallowedFees search_term
    ++ scanWording lease.allowedFees search_term
    ++ (if category = some "CAM" || strIn "cam" st_lower || strIn "common area" st_lower
        then scanRefs lease.camRules else [])
    ++ (if strIn "utility" st_lower || category = some "Utilities"
        then scanRefs lease.utilitiesDetails else [])
    ++ (if strIn "tax" st_lower || category = some "Tax"
        then scanRefs lease.taxesDetails else [])
    ++ (if strIn "escalation" st_lower || strIn "cap" st_lower
        then scanRefs lease.escalationCapsDetails else [])
  let all_refs :=
    scanRefs lease.camRules ++ scanRefs lease.disallowedFees
    ++ scanRefs lease.allowedFees ++ scanRefs lease.utilitiesDetails
    ++ scanRefs lease.taxesDetails ++ scanRefs lease.escalationCapsDetails
  (clause_refs.head?).getD ((all_refs.head?).getD "")

/-- The result of `check_violation`, which in `app.py` is the 4-tuple
`(is_violation, reason, explanation, clause_reference)`: the last three are
`None` exactly when the first is `False`. -/
inductive Verdict where
  | notViolating
  | violating (reason explanation clause_reference : String)
deriving DecidableEq

/-- The reason component of a verdict (`None` for a pass). -/
def Verdict.reasonOf : Verdict → Option String
  | .notViolating => none
  | .violating r _ _ => some r

/-- The clause-reference component of a verdict (`None` for a pass). -/
def Verdict.clauseOf : Verdict → Option String
  | .notViolating => none
  | .violating _ _ c => some c

/-- `f" (See {clause_ref})" if clause_ref else ""`. -/
def clauseText (cr : String) : String :=
  if cr = "" then "" else " (See " ++ cr ++ ")"

/-- Rule 1 keyword list of `check_violation`. -/
def utility_markup_keywords : List String :=
  ["utility admin", "admin fee", "utility markup", "utility surcharge",
   "utility processing", "utility handling", "utility service fee"]

/-- Rule 2 keyword list of `check_violation`. -/
def legal_keywords : List String :=
  ["legal fee", "attorney", "lawyer", "legal cost", "litigation"]

/-- Rule 2 tenant-action terms of `check_violation`. -/
def tenant_terms : List String :=
  ["eviction", "collection", "tenant", "default", "breach"]

/-- Rule 3 keyword list of `check_violation`. -/
def capital_improvement_keywords : List String :=
  ["roof", "capital improvement", "capital expenditure", "renovation",
   "remodeling", "structural", "building improvement", "facility upgrade",
   "hvac replacement", "plumbing replacement", "electrical upgrade"]

/-- Rule 4 keyword list of `check_violation`. -/
def management_keywords : List String :=
  ["management fee", "property management", "management charge", "mgmt fee"]

/-- Rule 6 exclusion list of `check_violation`. -/
def cam_exclusions : List String :=
  ["capital", "improvement", "roof", "structural", "renovation", "upgrade"]

/-- Python's `f"{x:.1f}"` on the management percentage, modelled by
rounding to one decimal place (exact digits are irrelevant to every
property proved below). -/
def fmtPct1 (q : ℚ) : String :=
  let n : ℤ := Rat.floor (q * 10 + 1 / 2)
  toString (n / 10) ++ "." ++ toString (n % 10)

/-- Rule 4 of `check_violation` (`management_keywords` matched): the body
of the Python `if any(keyword ...)` block, which either returns a verdict
or falls through (`none`) to rule 5.  The explicit-disallowance scan is
only reached when `total_invoice > 0` and the percentage is at most 5. -/
def rule4Check (desc_lower : String) (amount : ℚ) (lease : LeaseData)
    (total_invoice : ℚ) : Option Verdict :=
  if management_keywords.any (fun k => strIn k desc_lower) then
    if total_invoice > 0 then
      let management_percentage := amount / total_invoice * 100
      if management_percentage > 5 then
        let clause_ref := find_relevant_clause lease "management" none
        some (.violating
          ("Management Fee Over 5% (" ++ fmtPct1 management_percentage ++ "%)")
          ("Management fees exceeding 5% of total charges are typically excessive"
            ++ clauseText clause_ref ++ ". This charge represents "
            ++ fmtPct1 management_percentage
            ++ "% of the total invoice, which exceeds the standard 5% cap.")
          clause_ref)
      else
        match lease.disallowedFees.find?
            (fun it => strIn "management" (pyLower it.exact_wording)) with
        | some it =>
          some (.violating "Management Fee Not Allowed"
            ("Management fees are explicitly disallowed per the lease terms"
              ++ clauseText it.clause_reference ++ ".")
            it.clause_reference)
        | none => none
    else none
  else none

/-- One iteration of rule 5's loop over `disallowed_fees`: `some verdict`
when the entry matches the description, `none` otherwise. -/
def rule5Entry (desc_lower : String) (lease : LeaseData) (it : ClauseItem) :
    Option Verdict :=
  let disallowed_text := it.exact_wording
  let cr0 := pyStrip it.clause_reference
  let clause_ref :=
    if cr0 = "" || pyLower cr0 = "see lease document"
    then find_relevant_clause lease "disallowed" none else cr0
  let disallowed_lower := pyLower disallowed_text
  if strIn disallowed_lower desc_lower
      || (pyWords disallowed_lower).any
          (fun w => w.data.length > 3 && strIn w desc_lower) then
    some (.violating ("Disallowed Fee: " ++ strTake disallowed_text 50)
      ("This fee type is explicitly disallowed per the lease terms"
        ++ clauseText clause_ref ++ ": '" ++ disallowed_text ++ "'")
      clause_ref)
  else none

/-- Rule 5 of `check_violation`: first matching `disallowed_fees` entry
wins; `none` when no entry matches. -/
def rule5Check (desc_lower : String) (lease : LeaseData) : Option Verdict :=
  lease.disallowedFees.findSome? (rule5Entry desc_lower lease)

/-- `check_violation` from `app.py`: the fixed-order rule chain with
first-match-wins early returns. -/
def check_violation (description : String) (amount : ℚ) (category : String)
    (lease : LeaseData) (total_invoice : ℚ) : Verdict :=
  let desc_lower := pyLower description
  if utility_markup_keywords.any (fun k => strIn k desc_lower) then
    let cr0 := find_relevant_clause lease "utility" (some "Utilities")
    let clause_ref :=
      if cr0 = "" then find_relevant_clause lease "disallowed" none else cr0
    .violating "Utility Admin Fee / Markup"
      ("Utility markups and administrative fees are typically not allowed unless explicitly stated in the lease"
        ++ clauseText clause_ref
        ++ ". These are pass-through charges and landlords cannot add markups.")
      clause_ref
  else if legal_keywords.any (fun k => strIn k desc_lower)
      && !(tenant_terms.any (fun k => strIn k desc_lower)) then
    let clause_ref := find_relevant_clause lease "legal" none
    .violating "Legal Fees Unrelated to Tenant"
      ("Legal fees that are not related to tenant actions (like eviction or collection) are typically not chargeable to tenants"
        ++ clauseText clause_ref
        ++ ". General legal fees for landlord operations should not be passed through.")
      clause_ref
  else if capital_improvement_keywords.any (fun k => strIn k desc_lower) then
    let clause_ref := find_relevant_clause lease "capital" (some "CAM")
    .violating "Capital Improvement Charge"
      ("Capital improvements and major repairs (like roof replacement, HVAC systems, structural work) are typically the landlord's responsibility and should not be charged to tenants"
        ++ clauseText clause_ref
        ++ ". These are long-term investments that benefit the property owner.")
      clause_ref
  else
    match rule4Check desc_lower amount lease total_invoice with
    | some v => v
    | none =>
      match rule5Check desc_lower lease with
      | some v => v
      | none =>
        if category = "CAM"
            && cam_exclusions.any (fun k => strIn k desc_lower) then
          let clause_ref := find_relevant_clause lease "cam" (some "CAM")
          .violating "Non-CAM Item in CAM Charges"
            ("This charge appears to be a capital improvement or non-CAM item incorrectly categorized as CAM"
              ++ clauseText clause_ref
              ++ ". CAM should only include common area maintenance, not capital improvements.")
            clause_ref
        else .notViolating

/-- One record of the `mismatches` list of the comparison dict.  The
`clause_reference` key is absent (`none`) exactly for duplicate flags. -/
structure Mismatch where
  item : LineItem
  reason : String
  explanation : String
  clause_reference : Option String
  suggested_action : String
deriving DecidableEq

/-- One record of the `overcharges` list. -/
structure OverchargeRec where
  description : String
  amount : ℚ
  reason : String
deriving DecidableEq

/-- One record of the `disallowed_charges` list. -/
structure DisallowedRec where
  item : LineItem
  reason : String
deriving DecidableEq

/-- The `summary` dict once filled in by `compare_lease_invoice`. -/
structure Summary where
  total_invoice_amount : ℚ
  total_overcharge : ℚ
  total_allowed : ℚ
  number_of_items : Nat
  number_of_mismatches : Nat
  overcharge_percentage : ℚ
deriving DecidableEq

/-- The comparison dict returned by `compare_lease_invoice`; `summary` is
`none` while it is still the initial empty dict (the early-return case). -/
structure Report where
  mismatches : List Mismatch
  overcharges : List OverchargeRec
  total_overcharge : ℚ
  allowed_charges : List LineItem
  disallowed_charges : List DisallowedRec
  summary : Option Summary
deriving DecidableEq

/-- The loop state of `compare_lease_invoice`: the accumulating lists and
total plus the `seen_descriptions` keys (in insertion order). -/
structure CompState where
  mismatches : List Mismatch
  overcharges : List OverchargeRec
  total_overcharge : ℚ
  allowed_charges : List LineItem
  disallowed_charges : List DisallowedRec
  seen : List String
deriving DecidableEq

/-- The initial loop state. -/
def initState : CompState :=
  { mismatches := [], overcharges := [], total_overcharge := 0,
    allowed_charges := [], disallowed_charges := [], seen := [] }

/-- The fixed mismatch record appended for a duplicate charge. -/
def dupMismatch (item : LineItem) : Mismatch :=
  { item := item, reason := "Duplicate Charge",
    explanation := "Duplicate charge detected. This item appears multiple times in the invoice.",
    clause_reference := none,
    suggested_action := "Review with landlord - remove duplicate" }

/-- `description.lower().strip()`, the duplicate-detection key. -/
def normDesc (item : LineItem) : String := pyStrip (pyLower item.description)

/-- One iteration of the item loop of `compare_lease_invoice`. -/
def compStep (lease : LeaseData) (total_invoice : ℚ) (s : CompState)
    (item : LineItem) : CompState :=
  if s.seen.contains (normDesc item) then
    { s with
      mismatches := s.mismatches ++ [dupMismatch item],
      overcharges := s.overcharges
        ++ [{ description := item.description, amount := item.amount,
              reason := "Duplicate Charge" }],
      total_overcharge := s.total_overcharge + item.amount }
  else
    let s := { s with seen := s.seen ++ [normDesc item] }
    match check_violation item.description item.amount item.category lease
        total_invoice with
    | .violating r e c =>
      { s with
        mismatches := s.mismatches
          ++ [{ item := item, reason := r, explanation := e,
                clause_reference := some c,
                suggested_action := "Review with landlord - request removal or justification" }],
        overcharges := s.overcharges
          ++ [{ description := item.description, amount := item.amount,
                reason := r }],
        total_overcharge := s.total_overcharge + item.amount,
        disallowed_charges := s.disallowed_charges
          ++ [{ item := item, reason := r }] }
    | .notViolating =>
      { s with allowed_charges := s.allowed_charges ++ [item] }

/-- `compare_lease_invoice` from `app.py`. -/
def compare_lease_invoice (lease : LeaseData) (invoice : List LineItem) :
    Report :=
  if !lease.truthy || invoice.isEmpty then
    { mismatches := [], overcharges := [], total_overcharge := 0,
      allowed_charges := [], disallowed_charges := [], summary := none }
  else
    let total_invoice := (invoice.map (·.amount)).sum
    let st := invoice.foldl (compStep lease total_invoice) initState
    { mismatches := st.mismatches, overcharges := st.overcharges,
      total_overcharge := st.total_overcharge,
      allowed_charges := st.allowed_charges,
      disallowed_charges := st.disallowed_charges,
      summary := some
        { total_invoice_amount := total_invoice,
          total_overcharge := st.total_overcharge,
          total_allowed := total_invoice - st.total_overcharge,
          number_of_items := invoice.length,
          number_of_mismatches := st.mismatches.length,
          overcharge_percentage :=
            if total_invoice > 0 then st.total_overcharge / total_invoice * 100
            else 0 } }

/-- Number of duplicate-flagged entries of a mismatch list. -/
def dupCount (ms : List Mismatch) : Nat :=
  ms.countP (fun m => m.reason == "Duplicate Charge")

/-- The partition measure of a loop state: passed items plus rule-flagged
items plus duplicate-flagged items. -/
def partCount (s : CompState) : Nat :=
  s.allowed_charges.length + s.disallowed_charges.length + dupCount s.mismatches

/-- The spec scenario's first "Base Rent" line item. -/
def itemBR1 : LineItem :=
  { description := "Base Rent", amount := 1000, category := "Rent", line_number := 1 }

/-- The spec scenario's second, duplicate "Base Rent" line item. -/
def itemBR2 : LineItem :=
  { description := "Base Rent", amount := 1000, category := "Rent", line_number := 2 }

/-- Step 1/2 of the Clause Locator as the spec states it (§4.2): scan the
section, short-circuiting on the first entry whose `exact_wording` contains
the search term case-insensitively and whose reference is non-sentinel and
nonempty. -/
def specScanWording (items : List ClauseItem) (term : String) : Option String :=
  items.findSome? fun it =>
    if strIn (pyLower term) (pyLower it.exact_wording) then keepRef it.clause_reference
    else none

/-- Steps 3–7 of the Clause Locator as the spec states it: first
non-sentinel, nonempty reference of the section. -/
def specScanRefs (items : List ClauseItem) : Option String :=
  items.findSome? fun it => keepRef it.clause_reference

/-- The Clause Locator algorithm transcribed from the spec's numbered step
list (§4.2): each step short-circuits on the first non-sentinel, nonempty
match; steps 3–6 are gated by category/keyword; step 7 scans all six
collections in the fixed order; step 8 returns the empty string. -/
def findClauseSpec (lease : LeaseData) (search_term : String)
    (category : Option String) : String :=
  let st_lower := pyLower search_term
  ((specScanWording lease.disallowedFees search_term).or
  ((specScanWording lease.allowedFees search_term).or
  ((if category = some "CAM" || strIn "cam" st_lower || strIn "common area" st_lower
    then specScanRefs lease.camRules else none).or
  ((if strIn "utility" st_lower || category = some "Utilities"
    then specScanRefs lease.utilitiesDetails else none).or
  ((if strIn "tax" st_lower || category = some "Tax"
    then specScanRefs lease.taxesDetails else none).or
  ((if strIn "escalation" st_lower || strIn "cap" st_lower
    then specScanRefs lease.escalationCapsDetails else none).or
  ((specScanRefs lease.camRules).or
  ((specScanRefs lease.disallowedFees).or
  ((specScanRefs lease.allowedFees).or
  ((specScanRefs lease.utilitiesDetails).or
  ((specScanRefs lease.taxesDetails).or
   (specScanRefs lease.escalationCapsDetails)))))))))))).getD ""

/-- A minimal truthy lease dict: only extraneous keys (e.g. `raw_text`),
every section key absent. -/
def leaseBare : LeaseData :=
  { cam_rules := none, disallowed_fees := none, allowed_fees := none,
    utilities_details := none, taxes_details := none,
    escalation_caps_details := none, otherKeys := true }

/-- A lease whose `disallowed_fees` holds one management-related entry with
a real clause reference. -/
def leaseMgmt : LeaseData :=
  { cam_rules := none,
    disallowed_fees := some [⟨"no management fee allowed", "Section 9"⟩],
    allowed_fees := none, utilities_details := none, taxes_details := none,
    escalation_caps_details := none, otherKeys := true }

/-- The spec scenario's lease: `disallowed_fees =
[{exact_wording: "administrative fee", clause_reference: "Section 4.2"}]`. -/
def leaseAdmin : LeaseData :=
  { cam_rules := none,
    disallowed_fees := some [⟨"administrative fee", "Section 4.2"⟩],
    allowed_fees := none, utilities_details := none, taxes_details := none,
    escalation_caps_details := none, otherKeys := true }

example : categorize_charge "" = "Other" := by decide
example : categorize_charge "Water Heater Maintenance" = "CAM" := by decide
example : categorize_charge "Electric bill" = "Utilities" := by decide
example : categorize_charge "Base Rent" = "Rent" := by decide
example : strIn "admin fee" "utility admin fee - march" = true := by decide
example : strIn "xyz" "utility admin fee" = false := by decide
example : pyWords "  no  management fee " = ["no", "management", "fee"] := by decide
example : pyLower "AbC dEf" = "abc def" := by decide
example : pyStrip "  Section 4.2  " = "Section 4.2" := by decide

/-! ## Theorems -/

/-- Helper: `categorize_charge` is the explicit first-match if-chain over
the table rows, in row order, with `Other` as final fallback. -/
theorem categorize_charge_eq_chain (s : String) :
    categorize_charge s =
      (if ["cam", "common area", "maintenance"].any (fun k => strIn k (pyLower s)) then "CAM"
       else if ["tax", "property tax", "real estate"].any (fun k => strIn k (pyLower s)) then "Tax"
       else if ["utility", "electric", "water", "gas", "sewer", "trash"].any (fun k => strIn k (pyLower s)) then "Utilities"
       else if ["rent", "base rent", "monthly rent"].any (fun k => strIn k (pyLower s)) then "Rent"
       else if ["insurance", "liability"].any (fun k => strIn k (pyLower s)) then "Insurance"
       else "Other") := by
  unfold categorize_charge categoriesTable
  simp only [List.find?]
  repeat' split
  all_goals simp_all

/-- C8: `categorize_charge` is total and deterministic: every string maps
to exactly one of the six categories; the first table row (order CAM, Tax,
Utilities, Rent, Insurance) with a case-insensitive trigger-substring
match wins, and `Other` is returned exactly when no trigger matches. -/
theorem categorize_charge_total_ordered (s : String) :
    categorize_charge s ∈ ["CAM", "Tax", "Utilities", "Rent", "Insurance", "Other"] ∧
    categorize_charge s =
      (if ["cam", "common area", "maintenance"].any (fun k => strIn k (pyLower s)) then "CAM"
       else if ["tax", "property tax", "real estate"].any (fun k => strIn k (pyLower s)) then "Tax"
       else if ["utility", "electric", "water", "gas", "sewer", "trash"].any (fun k => strIn k (pyLower s)) then "Utilities"
       else if ["rent", "base rent", "monthly rent"].any (fun k => strIn k (pyLower s)) then "Rent"
       else if ["insurance", "liability"].any (fun k => strIn k (pyLower s)) then "Insurance"
       else "Other") ∧
    (categorize_charge s = "Other" ↔
      ∀ p ∈ categoriesTable, ∀ k ∈ p.2, strIn k (pyLower s) = false) := by
  refine ⟨?_, categorize_charge_eq_chain s, ?_⟩
  · rw [categorize_charge_eq_chain s]
    repeat' split
    all_goals simp
  · rw [categorize_charge_eq_chain s]
    constructor
    · intro h
      repeat' split at h
      all_goals simp_all [categoriesTable]
    · intro h
      simp only [categoriesTable] at h
      simp_all

/-- Helper: any reference `keepRef` lets through is not the sentinel in
any letter casing. -/
theorem keepRef_ne_sentinel {cr r : String} (h : keepRef cr = some r) :
    pyLower r ≠ "see lease document" := by
  simp only [keepRef] at h
  split at h
  · rename_i hc
    simp only [Bool.and_eq_true, decide_eq_true_eq] at hc
    cases h
    exact hc.2
  · exact absurd h (by simp)

/-- Helper: every reference collected by `scanWording` is non-sentinel. -/
theorem mem_scanWording_ne_sentinel {items : List ClauseItem} {term r : String}
    (h : r ∈ scanWording items term) : pyLower r ≠ "see lease document" := by
  unfold scanWording at h
  rw [List.mem_filterMap] at h
  obtain ⟨a, -, ha⟩ := h
  split at ha
  · exact keepRef_ne_sentinel ha
  · exact absurd ha (by simp)

/-- Helper: every reference collected by `scanRefs` is non-sentinel. -/
theorem mem_scanRefs_ne_sentinel {items : List ClauseItem} {r : String}
    (h : r ∈ scanRefs items) : pyLower r ≠ "see lease document" := by
  unfold scanRefs at h
  rw [List.mem_filterMap] at h
  obtain ⟨a, -, ha⟩ := h
  exact keepRef_ne_sentinel ha

/-- Helper: a property holding on both candidate lists and on the empty
string holds of the first-or-fallback-or-empty result. -/
theorem head_getD_prop {P : String → Prop} {l1 l2 : List String}
    (h1 : ∀ r ∈ l1, P r) (h2 : ∀ r ∈ l2, P r) (hd : P "") :
    P ((l1.head?).getD ((l2.head?).getD "")) := by
  cases l1 with
  | cons a t => exact h1 a (List.mem_cons_self a t)
  | nil =>
    cases l2 with
    | cons a t => exact h2 a (List.mem_cons_self a t)
    | nil => exact hd

/-- Helper: membership in a conditionally-included scan collapses to
membership in the scan. -/
theorem mem_of_ite_nil {b : Prop} [Decidable b] {l : List String} {r : String}
    (h : r ∈ (if b then l else [])) : r ∈ l := by
  split at h
  · exact h
  · cases h

/-- C6: `find_relevant_clause` never returns the sentinel "See lease
document" in any letter casing: its lowercasing never equals the sentinel
(in particular the result is a real reference or the empty string). -/
theorem find_relevant_clause_never_sentinel (lease : LeaseData)
    (search_term : String) (category : Option String) :
    pyLower (find_relevant_clause lease search_term category)
      ≠ "see lease document" := by
  unfold find_relevant_clause
  apply head_getD_prop (P := fun r => pyLower r ≠ "see lease document")
  · intro r hr
    simp only [List.mem_append] at hr
    rcases hr with ((((hr | hr) | hr) | hr) | hr) | hr
    · exact mem_scanWording_ne_sentinel hr
    · exact mem_scanWording_ne_sentinel hr
    all_goals exact mem_scanRefs_ne_sentinel (mem_of_ite_nil hr)
  · intro r hr
    simp only [List.mem_append] at hr
    rcases hr with ((((hr | hr) | hr) | hr) | hr) | hr
    all_goals exact mem_scanRefs_ne_sentinel hr
  · decide

/-- Helper: the head of a `filterMap` is its `findSome?`. -/
theorem head?_filterMap {α β : Type} (f : α → Option β) (l : List α) :
    (l.filterMap f).head? = l.findSome? f := by
  induction l with
  | nil => rfl
  | cons a t ih =>
    cases h : f a <;> simp [List.filterMap_cons, List.findSome?_cons, h, ih]

/-- Helper: `Option.or` is associative. -/
theorem option_or_assoc {α : Type} (a b c : Option α) :
    (a.or b).or c = a.or (b.or c) := by
  cases a <;> rfl

/-- Helper: `getD` after `Option.or` is a nested `getD`. -/
theorem option_or_getD {α : Type} (a b : Option α) (d : α) :
    (a.or b).getD d = a.getD (b.getD d) := by
  cases a <;> rfl

/-- Helper: the head of a conditionally-included list. -/
theorem head?_ite {p : Prop} [Decidable p] (l : List String) :
    (if p then l else []).head? = (if p then l.head? else none) := by
  split <;> rfl

/-- C7: `find_relevant_clause` follows the spec's documented priority
order exactly: it coincides, on every lease, search term and category,
with the step-by-step short-circuiting algorithm `findClauseSpec`
transcribed from the spec (disallowed-fees wording scan, then
allowed-fees, then the four gated reference scans, then the fixed-order
six-collection fallback, then the empty string). -/
theorem find_relevant_clause_eq_spec (lease : LeaseData) (search_term : String)
    (category : Option String) :
    find_relevant_clause lease search_term category
      = findClauseSpec lease search_term category := by
  unfold find_relevant_clause findClauseSpec specScanWording specScanRefs scanWording scanRefs
  simp only [List.head?_append, head?_filterMap, head?_ite, ← option_or_getD,
    option_or_assoc]

/-- C1: rule 1 (utility markup) wins over rule 6 (mis-categorized CAM):
for every line item whose description matches both keyword sets and for
every lease and invoice total, `check_violation` reports the verdict under
rule 1's reason "Utility Admin Fee / Markup" and never rule 6's, and the
verdict is exactly rule 1's (no later rule is evaluated). -/
theorem check_violation_rule1_over_rule6 (description : String) (amount : ℚ)
    (category : String) (lease : LeaseData) (total_invoice : ℚ)
    (h1 : utility_markup_keywords.any (fun k => strIn k (pyLower description)) = true)
    (h6a : category = "CAM")
    (h6b : cam_exclusions.any (fun k => strIn k (pyLower description)) = true) :
    (check_violation description amount category lease total_invoice).reasonOf
        = some "Utility Admin Fee / Markup" ∧
    (check_violation description amount category lease total_invoice).reasonOf
        ≠ some "Non-CAM Item in CAM Charges" ∧
    check_violation description amount category lease total_invoice
        = (let cr0 := find_relevant_clause lease "utility" (some "Utilities")
           let clause_ref :=
             if cr0 = "" then find_relevant_clause lease "disallowed" none else cr0
           .violating "Utility Admin Fee / Markup"
             ("Utility markups and administrative fees are typically not allowed unless explicitly stated in the lease"
               ++ clauseText clause_ref
               ++ ". These are pass-through charges and landlords cannot add markups.")
             clause_ref) := by
  unfold check_violation
  rw [if_pos h1]
  refine ⟨rfl, by simp [Verdict.reasonOf], rfl⟩

/-- Witness for C1 at the spec's scenario extended to also match rule 6:
description "Utility Admin Fee - Roof", category "CAM", matches both rule
1's and rule 6's keyword sets, and the verdict is rule 1's. -/
theorem check_violation_rule1_over_rule6_witness :
    utility_markup_keywords.any
        (fun k => strIn k (pyLower "Utility Admin Fee - Roof")) = true ∧
    cam_exclusions.any (fun k => strIn k (pyLower "Utility Admin Fee - Roof")) = true ∧
    (check_violation "Utility Admin Fee - Roof" 50 "CAM" leaseAdmin 1000).reasonOf
        = some "Utility Admin Fee / Markup" :=
  ⟨by decide, by decide,
   (check_violation_rule1_over_rule6 "Utility Admin Fee - Roof" 50 "CAM"
      leaseAdmin 1000 (by decide) rfl (by decide)).1⟩

/-- Counterexample to C2: with `totalInvoice = 0` the explicit-disallowance
branch of rule 4 is never reached (it sits inside the `total_invoice > 0`
block), so the item "property management fee" with a management-matching
`disallowed_fees` entry is flagged by rule 5 as "Disallowed Fee: no
management fee allowed", not "Management Fee Not Allowed" — even though
every hypothesis of the claim holds at this input. -/
theorem check_violation_mgmt_zero_total_counterexample :
    management_keywords.any
        (fun k => strIn k (pyLower "property management fee")) = true ∧
    ¬ ((0 : ℚ) > 0) ∧
    (∃ it ∈ leaseMgmt.disallowedFees,
        strIn "management" (pyLower it.exact_wording) = true) ∧
    (check_violation "property management fee" 10 "Other" leaseMgmt 0).reasonOf
        = some "Disallowed Fee: no management fee allowed" ∧
    (check_violation "property management fee" 10 "Other" leaseMgmt 0).reasonOf
        ≠ some "Management Fee Not Allowed" := by
  refine ⟨by decide, by decide, ⟨⟨"no management fee allowed", "Section 9"⟩, by decide, by decide⟩, ?_, ?_⟩ <;> decide

/-- C2 amended: the "Management Fee Not Allowed" branch (rule 4b) fires
only when `totalInvoice > 0` and the 5% check does not: if the description
matches a management keyword, matches no earlier rule (1–3),
`total_invoice > 0`, the percentage is at most 5, and some
`disallowed_fees` entry's wording contains "management" (the first such
entry being `e`), then the verdict is "Management Fee Not Allowed" with
`e`'s own `clause_reference`. -/
theorem check_violation_mgmt_disallowed (description : String) (amount : ℚ)
    (category : String) (lease : LeaseData) (total_invoice : ℚ) (e : ClauseItem)
    (h1 : utility_markup_keywords.any (fun k => strIn k (pyLower description)) = false)
    (h2 : (legal_keywords.any (fun k => strIn k (pyLower description))
        && !(tenant_terms.any (fun k => strIn k (pyLower description)))) = false)
    (h3 : capital_improvement_keywords.any
        (fun k => strIn k (pyLower description)) = false)
    (h4 : management_keywords.any (fun k => strIn k (pyLower description)) = true)
    (h5 : total_invoice > 0)
    (h6 : ¬ (amount / total_invoice * 100 > 5))
    (h7 : lease.disallowedFees.find?
        (fun it => strIn "management" (pyLower it.exact_wording)) = some e) :
    check_violation description amount category lease total_invoice
      = .violating "Management Fee Not Allowed"
          ("Management fees are explicitly disallowed per the lease terms"
            ++ clauseText e.clause_reference ++ ".")
          e.clause_reference := by
  unfold check_violation
  rw [if_neg (by simp [h1]), if_neg (by rw [h2]; simp), if_neg (by simp [h3])]
  unfold rule4Check
  rw [if_pos h4, if_pos h5]
  simp only [if_neg h6]
  -- the 4b branch: turn find? into findSome? form
  rw [h7]

/-- Witness for the amended C2: "property management fee" of 10 against a
total of 1000 (1% ≤ 5%) with a management-matching disallowed entry yields
"Management Fee Not Allowed" with that entry's clause reference. -/
theorem check_violation_mgmt_disallowed_witness :
    ¬ ((10 : ℚ) / 1000 * 100 > 5) ∧
    check_violation "property management fee" 10 "Other" leaseMgmt 1000
      = .violating "Management Fee Not Allowed"
          ("Management fees are explicitly disallowed per the lease terms"
            ++ clauseText "Section 9" ++ ".")
          "Section 9" :=
  ⟨by norm_num,
   check_violation_mgmt_disallowed "property management fee" 10 "Other"
     leaseMgmt 1000 ⟨"no management fee allowed", "Section 9"⟩
     (by decide) (by decide) (by decide) (by decide) (by norm_num)
     (by norm_num) (by decide)⟩

/-- Counterexample to C5: on empty `items` with a non-empty lease the
early-return report's `summary` is the *empty dict* (`none`), not a dict
of zero-valued fields, so "all-zero summary fields" fails as stated. -/
theorem compare_empty_summary_counterexample :
    (compare_lease_invoice leaseBare []).summary = none ∧
    (compare_lease_invoice leaseBare []).summary ≠
      some { total_invoice_amount := 0, total_overcharge := 0,
             total_allowed := 0, number_of_items := 0,
             number_of_mismatches := 0, overcharge_percentage := 0 } := by
  constructor <;> decide

/-- C5 amended: when either input is empty/absent, `compare_lease_invoice`
returns the all-empty report rather than an error: empty
mismatches/overcharges/allowed/disallowed lists, `total_overcharge = 0`,
and an *empty* summary mapping (no summary fields present). -/
theorem compare_empty_inputs_empty_report (lease : LeaseData)
    (items : List LineItem) (h : lease.truthy = false ∨ items = []) :
    compare_lease_invoice lease items =
      { mismatches := [], overcharges := [], total_overcharge := 0,
        allowed_charges := [], disallowed_charges := [], summary := none } := by
  unfold compare_lease_invoice
  rcases h with h | h <;> simp [h]

/-- Witness for the amended C5: the empty-items scenario with a non-empty
lease. -/
theorem compare_empty_inputs_empty_report_witness :
    (leaseBare.truthy = false ∨ ([] : List LineItem) = []) ∧
    compare_lease_invoice leaseBare [] =
      { mismatches := [], overcharges := [], total_overcharge := 0,
        allowed_charges := [], disallowed_charges := [], summary := none } :=
  ⟨Or.inr rfl, compare_empty_inputs_empty_report leaseBare [] (Or.inr rfl)⟩

/-- C9: `compare_lease_invoice` is deterministic — structurally equal
inputs produce structurally equal reports (the embedding is a pure
function of the lease and the items; nothing else flows into it). -/
theorem compare_deterministic (l1 l2 : LeaseData) (i1 i2 : List LineItem)
    (hl : l1 = l2) (hi : i1 = i2) :
    compare_lease_invoice l1 i1 = compare_lease_invoice l2 i2 := by
  rw [hl, hi]

/-- Witness for C9 at a concrete input. -/
theorem compare_deterministic_witness :
    leaseBare = leaseBare ∧
    compare_lease_invoice leaseBare [] = compare_lease_invoice leaseBare [] :=
  ⟨rfl, compare_deterministic leaseBare leaseBare [] [] rfl rfl⟩

/-- Helper: `List.contains` for strings is membership. -/
theorem contains_iff_mem {l : List String} {a : String} :
    l.contains a = true ↔ a ∈ l := by
  simp [List.contains, List.elem_iff]

/-- Helper: rule 4 never produces the reason "Duplicate Charge". -/
theorem rule4Check_reason_ne_dup {dl : String} {amount : ℚ} {lease : LeaseData}
    {ti : ℚ} {r e c : String}
    (h : rule4Check dl amount lease ti = some (.violating r e c)) :
    r ≠ "Duplicate Charge" := by
  simp only [rule4Check] at h
  split at h
  · split at h
    · split at h
      · simp only [Option.some.injEq, Verdict.violating.injEq] at h
        obtain ⟨hr, -, -⟩ := h
        subst hr
        intro hr
        have hlen := congrArg String.length hr
        rw [String.length_append, String.length_append] at hlen
        have l1 : ("Management Fee Over 5% (" : String).length = 24 := by decide
        have l3 : ("Duplicate Charge" : String).length = 16 := by decide
        have l2 : ("%)" : String).length = 2 := by decide
        omega
      · split at h
        · simp only [Option.some.injEq, Verdict.violating.injEq] at h
          obtain ⟨hr, -, -⟩ := h
          subst hr
          decide
        · exact absurd h (by simp)
    · exact absurd h (by simp)
  · exact absurd h (by simp)

/-- Helper: one rule-5 entry never produces the reason "Duplicate Charge". -/
theorem rule5Entry_reason_ne_dup {dl : String} {lease : LeaseData}
    {it : ClauseItem} {r e c : String}
    (h : rule5Entry dl lease it = some (.violating r e c)) :
    r ≠ "Duplicate Charge" := by
  simp only [rule5Entry] at h
  split at h
  · simp only [Option.some.injEq, Verdict.violating.injEq] at h
    obtain ⟨hr, -, -⟩ := h
    subst hr
    intro hr
    have hlen := congrArg String.length hr
    rw [String.length_append] at hlen
    have l1 : ("Disallowed Fee: " : String).length = 16 := by decide
    have l3 : ("Duplicate Charge" : String).length = 16 := by decide
    have h0 : (strTake it.exact_wording 50).length = 0 := by omega
    have hdata : (strTake it.exact_wording 50).data = [] :=
      List.length_eq_zero.mp h0
    have hempty : strTake it.exact_wording 50 = "" := String.ext hdata
    rw [hempty] at hr
    exact absurd hr (by decide)
  · exact absurd h (by simp)

/-- Helper: `check_violation` never produces the reason "Duplicate
Charge"; that reason is minted only by the duplicate-detection loop. -/
theorem check_violation_reason_ne_dup {description : String} {amount : ℚ}
    {category : String} {lease : LeaseData} {total_invoice : ℚ}
    {r e c : String}
    (h : check_violation description amount category lease total_invoice
        = .violating r e c) :
    r ≠ "Duplicate Charge" := by
  simp only [check_violation] at h
  split at h
  · simp only [Verdict.violating.injEq] at h
    obtain ⟨hr, -, -⟩ := h
    subst hr
    decide
  · split at h
    · simp only [Verdict.violating.injEq] at h
      obtain ⟨hr, -, -⟩ := h
      subst hr
      decide
    · split at h
      · simp only [Verdict.violating.injEq] at h
        obtain ⟨hr, -, -⟩ := h
        subst hr
        decide
      · split at h
        · rename_i v hv4
          subst h
          exact rule4Check_reason_ne_dup hv4
        · split at h
          · rename_i v hv5
            subst h
            obtain ⟨a, -, ha⟩ := List.exists_of_findSome?_eq_some hv5
            exact rule5Entry_reason_ne_dup ha
          · split at h
            · simp only [Verdict.violating.injEq] at h
              obtain ⟨hr, -, -⟩ := h
              subst hr
              decide
            · exact absurd h (by simp)

/-- Helper: one loop step increments the partition measure by exactly
one — every item lands in exactly one of allowed / disallowed /
duplicate-flagged. -/
theorem partCount_compStep (lease : LeaseData) (ti : ℚ) (s : CompState)
    (x : LineItem) :
    partCount (compStep lease ti s x) = partCount s + 1 := by
  unfold compStep
  split
  · unfold partCount dupCount
    simp [List.countP_append, List.countP_cons, dupMismatch]
    omega
  · split
    · rename_i r e c hv
      have hr := check_violation_reason_ne_dup hv
      unfold partCount dupCount
      simp [List.countP_append, List.countP_cons, hr]
      omega
    · unfold partCount dupCount
      simp
      omega

/-- Helper: folding the loop over the items adds the item count to the
partition measure. -/
theorem partCount_foldl (lease : LeaseData) (ti : ℚ) (items : List LineItem) :
    ∀ s : CompState,
      partCount (items.foldl (compStep lease ti) s) = partCount s + items.length := by
  induction items with
  | nil => intro s; simp
  | cons x t ih =>
    intro s
    rw [List.foldl_cons, ih, partCount_compStep]
    simp only [List.length_cons]
    omega

/-- Helper: membership in the `seen_descriptions` keys after the loop is
membership before it or among the normalized descriptions processed. -/
theorem seen_foldl (lease : LeaseData) (ti : ℚ) (items : List LineItem) :
    ∀ (s : CompState) (d : String),
      d ∈ (items.foldl (compStep lease ti) s).seen ↔
        d ∈ s.seen ∨ d ∈ items.map normDesc := by
  induction items with
  | nil => intro s d; simp
  | cons x t ih =>
    intro s d
    rw [List.foldl_cons, ih]
    have hstep : ∀ d : String,
        d ∈ (compStep lease ti s x).seen ↔ d ∈ s.seen ∨ d = normDesc x := by
      intro d
      unfold compStep
      split
      · rename_i hc
        have hmem : normDesc x ∈ s.seen := contains_iff_mem.mp hc
        constructor
        · exact Or.inl
        · rintro (h | rfl)
          · exact h
          · exact hmem
      · split <;> simp [List.mem_append]
    rw [hstep]
    simp only [List.map_cons, List.mem_cons]
    tauto

/-- Helper: one loop step can only grow the running overcharge, and by at
most the item's amount. -/
theorem compStep_toc_bounds (lease : LeaseData) (ti : ℚ) (s : CompState)
    (x : LineItem) (hx : 0 ≤ x.amount) :
    s.total_overcharge ≤ (compStep lease ti s x).total_overcharge ∧
    (compStep lease ti s x).total_overcharge ≤ s.total_overcharge + x.amount := by
  unfold compStep
  split
  · dsimp
    constructor <;> linarith
  · split
    · dsimp
      constructor <;> linarith
    · dsimp
      constructor <;> linarith

/-- Helper: after the loop, the overcharge lies between its initial value
and the initial value plus the sum of the processed amounts (each item's
amount is added at most once). -/
theorem toc_foldl_bounds (lease : LeaseData) (ti : ℚ) (items : List LineItem) :
    ∀ s : CompState, (∀ it ∈ items, 0 ≤ it.amount) →
      s.total_overcharge ≤ (items.foldl (compStep lease ti) s).total_overcharge ∧
      (items.foldl (compStep lease ti) s).total_overcharge
        ≤ s.total_overcharge + (items.map (·.amount)).sum := by
  induction items with
  | nil => intro s _; simp
  | cons x t ih =>
    intro s h
    rw [List.foldl_cons]
    have hx : 0 ≤ x.amount := h x (List.mem_cons_self x t)
    have ht : ∀ it ∈ t, 0 ≤ it.amount := fun it hit => h it (List.mem_cons_of_mem x hit)
    obtain ⟨ih1, ih2⟩ := ih (compStep lease ti s x) ht
    obtain ⟨s1, s2⟩ := compStep_toc_bounds lease ti s x hx
    constructor
    · linarith
    · rw [List.map_cons, List.sum_cons]
      linarith

/-- Helper: when the guard passes (truthy lease, nonempty items),
`compare_lease_invoice` is the loop fold with its derived summary. -/
theorem compare_eq_of_guard (lease : LeaseData) (items : List LineItem)
    (hl : lease.truthy = true) (hempty : items.isEmpty = false) :
    compare_lease_invoice lease items =
      { mismatches := (items.foldl (compStep lease ((items.map (·.amount)).sum)) initState).mismatches,
        overcharges := (items.foldl (compStep lease ((items.map (·.amount)).sum)) initState).overcharges,
        total_overcharge := (items.foldl (compStep lease ((items.map (·.amount)).sum)) initState).total_overcharge,
        allowed_charges := (items.foldl (compStep lease ((items.map (·.amount)).sum)) initState).allowed_charges,
        disallowed_charges := (items.foldl (compStep lease ((items.map (·.amount)).sum)) initState).disallowed_charges,
        summary := some
          { total_invoice_amount := (items.map (·.amount)).sum,
            total_overcharge := (items.foldl (compStep lease ((items.map (·.amount)).sum)) initState).total_overcharge,
            total_allowed := (items.map (·.amount)).sum
              - (items.foldl (compStep lease ((items.map (·.amount)).sum)) initState).total_overcharge,
            number_of_items := items.length,
            number_of_mismatches := (items.foldl (compStep lease ((items.map (·.amount)).sum)) initState).mismatches.length,
            overcharge_percentage :=
              if (items.map (·.amount)).sum > 0
              then (items.foldl (compStep lease ((items.map (·.amount)).sum)) initState).total_overcharge
                / (items.map (·.amount)).sum * 100
              else 0 } } := by
  unfold compare_lease_invoice
  rw [if_neg (by simp [hl, hempty])]

/-- C4: conservation — past the empty-input guard, the summary satisfies
`total_allowed + total_overcharge = total_invoice_amount` exactly (over
exact rational arithmetic), and the items are partitioned:
allowed + disallowed + duplicate-flagged = item count. -/
theorem compare_conservation (lease : LeaseData) (items : List LineItem)
    (hl : lease.truthy = true) (hne : items ≠ []) :
    ∃ s : Summary, (compare_lease_invoice lease items).summary = some s ∧
      s.total_allowed + s.total_overcharge = s.total_invoice_amount ∧
      (compare_lease_invoice lease items).allowed_charges.length
        + (compare_lease_invoice lease items).disallowed_charges.length
        + dupCount (compare_lease_invoice lease items).mismatches
        = items.length := by
  have hempty : items.isEmpty = false := by
    cases items with
    | nil => exact absurd rfl hne
    | cons a t => rfl
  rw [compare_eq_of_guard lease items hl hempty]
  refine ⟨_, rfl, ?_, ?_⟩
  · dsimp
    ring
  · dsimp
    have h := partCount_foldl lease ((items.map (·.amount)).sum) items initState
    simpa [partCount, initState, dupCount] using h

/-- Witness for C4: one "Base Rent" item against the bare lease. -/
theorem compare_conservation_witness :
    leaseBare.truthy = true ∧ ([itemBR1] : List LineItem) ≠ [] ∧
    (∃ s : Summary, (compare_lease_invoice leaseBare [itemBR1]).summary = some s ∧
      s.total_allowed + s.total_overcharge = s.total_invoice_amount ∧
      (compare_lease_invoice leaseBare [itemBR1]).allowed_charges.length
        + (compare_lease_invoice leaseBare [itemBR1]).disallowed_charges.length
        + dupCount (compare_lease_invoice leaseBare [itemBR1]).mismatches
        = [itemBR1].length) :=
  ⟨by decide, by decide,
   compare_conservation leaseBare [itemBR1] (by decide) (by decide)⟩

/-- C10: with nonnegative item amounts the report's overcharge is bounded:
`0 ≤ total_overcharge ≤ total_invoice_amount` (each amount is added at
most once), hence `total_allowed ≥ 0` and the overcharge percentage lies
in [0, 100]. -/
theorem compare_overcharge_bounds (lease : LeaseData) (items : List LineItem)
    (hpos : ∀ it ∈ items, 0 ≤ it.amount)
    (hl : lease.truthy = true) (hne : items ≠ []) :
    ∃ s : Summary, (compare_lease_invoice lease items).summary = some s ∧
      (compare_lease_invoice lease items).total_overcharge = s.total_overcharge ∧
      0 ≤ s.total_overcharge ∧ s.total_overcharge ≤ s.total_invoice_amount ∧
      0 ≤ s.total_allowed ∧
      0 ≤ s.overcharge_percentage ∧ s.overcharge_percentage ≤ 100 := by
  have hempty : items.isEmpty = false := by
    cases items with
    | nil => exact absurd rfl hne
    | cons a t => rfl
  obtain ⟨hb1, hb2⟩ :=
    toc_foldl_bounds lease ((items.map (·.amount)).sum) items initState hpos
  have h0 : initState.total_overcharge = 0 := rfl
  rw [h0] at hb1 hb2
  rw [zero_add] at hb2
  rw [compare_eq_of_guard lease items hl hempty]
  refine ⟨_, rfl, rfl, ?_, ?_, ?_, ?_, ?_⟩ <;> dsimp
  · exact hb1
  · exact hb2
  · linarith
  · split
    · rename_i hti
      exact mul_nonneg (div_nonneg hb1 (le_of_lt hti)) (by norm_num)
    · exact le_refl 0
  · split
    · rename_i hti
      have hd : (items.foldl (compStep lease ((items.map (·.amount)).sum)) initState).total_overcharge
          / (items.map (·.amount)).sum ≤ 1 := (div_le_one hti).mpr hb2
      calc (items.foldl (compStep lease ((items.map (·.amount)).sum)) initState).total_overcharge
            / (items.map (·.amount)).sum * 100
          ≤ 1 * 100 := mul_le_mul_of_nonneg_right hd (by norm_num)
        _ = 100 := by norm_num
    · norm_num

/-- Witness for C10: one nonnegative "Base Rent" item against the bare
lease. -/
theorem compare_overcharge_bounds_witness :
    (∀ it ∈ ([itemBR1] : List LineItem), 0 ≤ it.amount) ∧
    leaseBare.truthy = true ∧ ([itemBR1] : List LineItem) ≠ [] ∧
    (∃ s : Summary, (compare_lease_invoice leaseBare [itemBR1]).summary = some s ∧
      (compare_lease_invoice leaseBare [itemBR1]).total_overcharge = s.total_overcharge ∧
      0 ≤ s.total_overcharge ∧ s.total_overcharge ≤ s.total_invoice_amount ∧
      0 ≤ s.total_allowed ∧
      0 ≤ s.overcharge_percentage ∧ s.overcharge_percentage ≤ 100) :=
  ⟨by decide, by decide, by decide,
   compare_overcharge_bounds leaseBare [itemBR1] (by decide) (by decide) (by decide)⟩

/-- Helper: when the normalized description was already seen, the loop
step appends exactly the fixed duplicate record and the item's amount,
without consulting the Violation Checker. -/
theorem compStep_of_seen {lease : LeaseData} {ti : ℚ} {s : CompState}
    {x : LineItem} (h : s.seen.contains (normDesc x) = true) :
    compStep lease ti s x =
      { s with
        mismatches := s.mismatches ++ [dupMismatch x],
        overcharges := s.overcharges
          ++ [{ description := x.description, amount := x.amount,
                reason := "Duplicate Charge" }],
        total_overcharge := s.total_overcharge + x.amount } := by
  unfold compStep
  rw [if_pos h]

/-- C3: duplicate precedence — past the guard, an item whose normalized
description already occurred is flagged "Duplicate Charge" with the fixed
explanation and *no* clause-reference key, the Violation Checker's verdict
for it is never consulted (the appended record is the fixed duplicate one
whatever `check_violation` would say), and its full amount is added to
`total_overcharge`. -/
theorem compare_duplicate_second (lease : LeaseData) (pre : List LineItem)
    (x : LineItem) (hl : lease.truthy = true)
    (hdup : normDesc x ∈ pre.map normDesc) :
    (compare_lease_invoice lease (pre ++ [x])).mismatches
      = (pre.foldl (compStep lease (((pre ++ [x]).map (·.amount)).sum)) initState).mismatches
        ++ [dupMismatch x] ∧
    (compare_lease_invoice lease (pre ++ [x])).total_overcharge
      = (pre.foldl (compStep lease (((pre ++ [x]).map (·.amount)).sum)) initState).total_overcharge
        + x.amount ∧
    (dupMismatch x).reason = "Duplicate Charge" ∧
    (dupMismatch x).clause_reference = none := by
  have hempty : (pre ++ [x]).isEmpty = false := by
    cases pre <;> rfl
  rw [compare_eq_of_guard lease (pre ++ [x]) hl hempty]
  dsimp
  rw [List.foldl_append, List.foldl_cons, List.foldl_nil]
  have hseen : ((pre.foldl (compStep lease (((pre ++ [x]).map (·.amount)).sum)) initState).seen).contains
      (normDesc x) = true := by
    rw [contains_iff_mem, seen_foldl]
    right
    exact hdup
  rw [compStep_of_seen hseen]
  exact ⟨rfl, rfl, rfl, rfl⟩

/-- Witness for C3 at the spec's scenario: two identical "Base Rent" items
— the second is flagged as the fixed duplicate record and its 1000 is
added to the overcharge. -/
theorem compare_duplicate_second_witness :
    leaseBare.truthy = true ∧
    normDesc itemBR2 ∈ [itemBR1].map normDesc ∧
    ((compare_lease_invoice leaseBare ([itemBR1] ++ [itemBR2])).mismatches
      = ([itemBR1].foldl (compStep leaseBare ((([itemBR1] ++ [itemBR2]).map (·.amount)).sum)) initState).mismatches
        ++ [dupMismatch itemBR2] ∧
    (compare_lease_invoice leaseBare ([itemBR1] ++ [itemBR2])).total_overcharge
      = ([itemBR1].foldl (compStep leaseBare ((([itemBR1] ++ [itemBR2]).map (·.amount)).sum)) initState).total_overcharge
        + itemBR2.amount ∧
    (dupMismatch itemBR2).reason = "Duplicate Charge" ∧
    (dupMismatch itemBR2).clause_reference = none) :=
  ⟨by decide, by decide,
   compare_duplicate_second leaseBare [itemBR1] itemBR2 (by decide) (by decide)⟩

/-- Scenario check from the spec: the invoice `[Base Rent 1000, Base Rent
1000]` yields `total_overcharge = 1000` — only the duplicate's amount is
flagged. -/
theorem duplicate_scenario_total_overcharge :
    (compare_lease_invoice leaseBare [itemBR1, itemBR2]).total_overcharge = 1000 := by
  rw [compare_eq_of_guard leaseBare [itemBR1, itemBR2] (by decide) rfl]
  dsimp
  have hs : ((compStep leaseBare (itemBR1.amount + (itemBR2.amount + 0)) initState
      itemBR1).seen).contains (normDesc itemBR2) = true := by decide
  rw [compStep_of_seen hs]
  dsimp
  have h0 : (compStep leaseBare (itemBR1.amount + (itemBR2.amount + 0)) initState
      itemBR1).total_overcharge = 0 := by decide
  rw [h0]
  norm_num [itemBR2]
